import Mathlib

/-!
Verification of the `UniswapLpCycle` arbitrage helper
(`src/degenbot/arbitrage/uniswap_lp_cycle.py`).

The data model and the operations below are shallow embeddings of the
Python source.  Pool swap calculators (`calculate_tokens_out_from_tokens_in`
of the V2/V3 pool classes) are not part of the source tree, so the cycle
code is embedded parametrically over them; the V2 formula used for concrete
instances is modelled from the spec (section 4.3).  Python floats are
modelled as exact rationals, Python ints as `Nat`/`Int`.
-/

namespace Degenbot

/-- Python `int(x)` applied to a float: truncation toward zero. -/
def pyInt (q : ℚ) : ℤ := if 0 ≤ q then ⌊q⌋ else ⌈q⌉

/-- A `fractions.Fraction` fee, e.g. 3/1000 for the default V2 fee. -/
structure Fee where
  num : ℕ
  den : ℕ
deriving DecidableEq

/-- `UniswapV2PoolState`: the fields read by the arbitrage helper. -/
structure V2PoolState where
  reserves_token0 : ℕ
  reserves_token1 : ℕ
deriving DecidableEq

/-- `UniswapV3PoolState`: the fields read by the arbitrage helper.  The
tick bitmap is kept as an association list of words; only its emptiness is
inspected by `_pre_calculation_check`. -/
structure V3PoolState where
  sqrt_price_x96 : ℕ
  liquidity : ℕ
  tick_bitmap : List (Int × ℕ)
deriving DecidableEq

/-- Modelled from the spec: `TickMath.MIN_SQRT_RATIO` (the v3_libraries
module is not under src; the value is given in spec section 4.2). -/
def minSqrtRatio : ℕ := 4295128739

/-- Modelled from the spec: `TickMath.MAX_SQRT_RATIO` (the v3_libraries
module is not under src; the value is given in spec section 4.2). -/
def maxSqrtRatio : ℕ := 1461446703485210103287273052203988822378723970342

/-- A pool as seen by `_pre_calculation_check`: its address, its fee
configuration and its cached `pool.state`.  V2 pools carry per-direction
fees (`fee_token0` / `fee_token1`); V3 pools carry the integer `_fee` in
hundredths of a bip. -/
inductive PoolSpec where
  | v2 (address : ℕ) (fee_token0 fee_token1 : Fee) (state : V2PoolState)
  | v3 (address : ℕ) (fee : ℕ) (state : V3PoolState)
deriving DecidableEq

/-- `state_overrides.get(pool.address) or pool.state` for a V2 pool
(pool states are always truthy in Python, so `or` is `getD`). -/
def v2EffState (ov2 : ℕ → Option V2PoolState) (address : ℕ) (st : V2PoolState) :
    V2PoolState :=
  (ov2 address).getD st

/-- `state_overrides.get(pool.address) or pool.state` for a V3 pool. -/
def v3EffState (ov3 : ℕ → Option V3PoolState) (address : ℕ) (st : V3PoolState) :
    V3PoolState :=
  (ov3 address).getD st

/-- The liquidity checks of `_pre_calculation_check` (lines 404-454): the
conditions under which the hop raises `ZeroLiquidityError`. -/
def hopZeroLiquidity (ov2 : ℕ → Option V2PoolState) (ov3 : ℕ → Option V3PoolState) :
    PoolSpec → Bool → Bool
  | .v2 address _ _ st, zero_for_one =>
    let s := v2EffState ov2 address st
    (s.reserves_token0 == 0 || s.reserves_token1 == 0)
      || (s.reserves_token1 == 1 && zero_for_one)
      || (s.reserves_token0 == 1 && !zero_for_one)
  | .v3 address _ st, zero_for_one =>
    let s := v3EffState ov3 address st
    (s.sqrt_price_x96 == 0)
      || s.tick_bitmap.isEmpty
      || (s.liquidity == 0
            && ((s.sqrt_price_x96 == minSqrtRatio + 1 && zero_for_one)
                || (s.sqrt_price_x96 == maxSqrtRatio - 1 && !zero_for_one)))

/-- The spot price read by `_pre_calculation_check`:
`reserves_token1 / reserves_token0` for V2, `sqrt_price_x96**2 / 2**192`
for V3. -/
def hopPrice (ov2 : ℕ → Option V2PoolState) (ov3 : ℕ → Option V3PoolState) :
    PoolSpec → ℚ
  | .v2 address _ _ st =>
    let s := v2EffState ov2 address st
    (s.reserves_token1 : ℚ) / (s.reserves_token0 : ℚ)
  | .v3 address _ st =>
    let s := v3EffState ov3 address st
    (s.sqrt_price_x96 : ℚ) ^ 2 / 2 ^ 192

/-- The fee used by `_pre_calculation_check` for one hop:
`fee_token0`/`fee_token1` by direction for V2, `Fraction(_fee, 1000000)`
for V3. -/
def hopFee : PoolSpec → Bool → Fee
  | .v2 _ fee_token0 fee_token1 _, zero_for_one =>
    if zero_for_one then fee_token0 else fee_token1
  | .v3 _ fee _, _ => ⟨fee, 1000000⟩

/-- One hop's contribution to `profit_factor`:
`(price if zero_for_one else 1/price) * ((fee.den - fee.num) / fee.den)`. -/
def hopFactor (ov2 : ℕ → Option V2PoolState) (ov3 : ℕ → Option V3PoolState)
    (p : PoolSpec) (zero_for_one : Bool) : ℚ :=
  let price := hopPrice ov2 ov3 p
  let fee := hopFee p zero_for_one
  (if zero_for_one then price else 1 / price)
    * (((fee.den : ℚ) - (fee.num : ℚ)) / (fee.den : ℚ))

/-- Outcome of `_pre_calculation_check`: pass, or one of the two raised
error kinds. -/
inductive PreCheckResult where
  | ok
  | noProfit
  | zeroLiquidity
deriving DecidableEq

/-- The loop of `_pre_calculation_check`: raise `ZeroLiquidityError` at the
first hop failing its liquidity check, otherwise accumulate
`profit_factor` and compare it against 1 at the end. -/
def preCheckAux (ov2 : ℕ → Option V2PoolState) (ov3 : ℕ → Option V3PoolState) :
    List (PoolSpec × Bool) → ℚ → PreCheckResult
  | [], profit_factor => if profit_factor < 1 then .noProfit else .ok
  | (p, zero_for_one) :: rest, profit_factor =>
    if hopZeroLiquidity ov2 ov3 p zero_for_one then .zeroLiquidity
    else preCheckAux ov2 ov3 rest (profit_factor * hopFactor ov2 ov3 p zero_for_one)

/-- `_pre_calculation_check`, as a function of the cycle's hops (pool plus
the swap vector's direction flag) and the sorted state overrides. -/
def preCalculationCheck (hops : List (PoolSpec × Bool))
    (ov2 : ℕ → Option V2PoolState) (ov3 : ℕ → Option V3PoolState) : PreCheckResult :=
  preCheckAux ov2 ov3 hops 1

/-- The error kinds a pool's `calculate_tokens_out_from_tokens_in` can
raise and that the objective `arb_profit` catches: `EVMRevertError` and
`LiquidityPoolError` (the latter covers `ZeroSwap`, `ZeroLiquidity`,
`InsufficientLiquidity`). -/
inductive PoolCalcError where
  | evmRevert
  | liquidityPool
deriving DecidableEq

/-- A pool's swap calculator, abstracted: the cycle code calls
`calculate_tokens_out_from_tokens_in` through a uniform interface. -/
def PoolCalc := ℕ → Except PoolCalcError ℕ

/-- The pure composition of the swap chain: feed each pool's output into
the next pool, propagating the first error. -/
def chainExcept : List PoolCalc → ℕ → Except PoolCalcError ℕ
  | [], a => .ok a
  | f :: rest, a =>
    match f a with
    | .error e => .error e
    | .ok out => chainExcept rest out

/-- The loop body of `arb_profit` inside `_calculate` (lines 510-533):
`token_out_quantity` starts at 0, each hop is fed the first hop's input or
the previous hop's output, and any caught error sets the running output to
0 and breaks. -/
def arbLoopBody : List PoolCalc → ℕ → ℕ → ℕ
  | [], _, token_out_quantity => token_out_quantity
  | f :: rest, token_in, _ =>
    match f token_in with
    | .error _ => 0
    | .ok out => arbLoopBody rest out out

/-- The final `token_out_quantity` computed by the `arb_profit` loop. -/
def tokenOutQuantityOf (hops : List PoolCalc) (token_in_quantity : ℕ) : ℕ :=
  arbLoopBody hops token_in_quantity 0

/-- The objective `arb_profit` of `_calculate`: round the candidate input
down to an integer, push it through the chain (with errors swallowed to
zero output), and return the negated profit. -/
def arbProfit (hops : List PoolCalc) (x : ℚ) : ℚ :=
  let token_in_quantity := pyInt x;
  -((tokenOutQuantityOf hops token_in_quantity.toNat : ℚ) - (token_in_quantity : ℚ))

/-- Modelled from the spec: `LiquidityPool.calculate_tokens_out_from_tokens_in`
(v2_liquidity_pool.py is not under src).  Spec section 4.3: fail `ZeroSwap`
on zero input and `ZeroLiquidity` on an empty reserve, apply the fee,
floor-divide, and clamp the output to `reserve_out - 1` (the last unit is
unreachable). -/
def v2CalcOutFromIn (reserve_in reserve_out fee_num fee_den : ℕ) : PoolCalc :=
  fun amount_in =>
    if amount_in = 0 then .error .liquidityPool
    else if reserve_in = 0 ∨ reserve_out = 0 then .error .liquidityPool
    else
      let amount_in_with_fee := amount_in * (fee_den - fee_num)
      let amount_out := amount_in_with_fee * reserve_out
        / (reserve_in * fee_den + amount_in_with_fee)
      .ok (min amount_out (reserve_out - 1))

/-- Sanity check of the modelled V2 formula against the repository's own
test vector (WBTC-WETH pool, `token0` input). -/
theorem v2CalcOutFromIn_wbtc_weth_token0 :
    v2CalcOutFromIn 16231137593 2571336301536722443178 3 1000 8000000000
      = .ok 847228560678214929944 := by rfl

/-- Sanity check of the modelled V2 formula against the repository's own
test vector (WBTC-WETH pool, `token1` input). -/
theorem v2CalcOutFromIn_wbtc_weth_token1 :
    v2CalcOutFromIn 2571336301536722443178 16231137593 3 1000 1200000000000000000000
      = .ok 5154005339 := by rfl

/-- The Uniswap version of a pool, as dispatched on by `_build_amounts_out`. -/
inductive PoolKind where
  | v2
  | v3
deriving DecidableEq

/-- One hop as consumed by `_build_amounts_out` and the `arb_profit` loop:
the pool's version, the precomputed swap vector's direction flag, and the
pool's swap calculator (with any state override already applied). -/
structure BuildHop where
  kind : PoolKind
  zero_for_one : Bool
  calcOut : PoolCalc

/-- `UniswapV2PoolSwapAmounts` / `UniswapV3PoolSwapAmounts`: the per-hop
swap record built by `_build_amounts_out`. -/
inductive SwapAmounts where
  | v2 (amounts : ℕ × ℕ)
  | v3 (amount_specified : ℤ) (zero_for_one : Bool) (sqrt_price_limit_x96 : ℕ)
deriving DecidableEq

/-- The record appended by `_build_amounts_out` for one hop (lines
288-305): V2 pools get `(0, out)` or `(out, 0)` by direction, V3 pools get
the hop's input as `amount_specified` plus the boundary price limit. -/
def mkSwapRecord (h : BuildHop) (token_in_quantity token_out_quantity : ℕ) :
    SwapAmounts :=
  match h.kind with
  | .v2 =>
    .v2 (if h.zero_for_one then (0, token_out_quantity) else (token_out_quantity, 0))
  | .v3 =>
    .v3 (token_in_quantity : ℤ) h.zero_for_one
      (if h.zero_for_one then minSqrtRatio + 1 else maxSqrtRatio - 1)

/-- How `_build_amounts_out` terminates abnormally: a caught
`LiquidityPoolError` re-raised as `ArbitrageError`, the zero-output-hop
`ArbitrageError`, or an uncaught `EVMRevertError` propagating out. -/
inductive BuildError where
  | arbitrageFromPool
  | zeroOutputHop
  | evmRevert
deriving DecidableEq

/-- `_build_amounts_out` (lines 225-311): run the chain once, failing on a
pool error or on a zero output, and collect the per-hop swap records. -/
def buildAmountsOut : List BuildHop → ℕ → Except BuildError (List SwapAmounts)
  | [], _ => .ok []
  | h :: rest, token_in_quantity =>
    match h.calcOut token_in_quantity with
    | .error .liquidityPool => .error .arbitrageFromPool
    | .error .evmRevert => .error .evmRevert
    | .ok token_out_quantity =>
      if token_out_quantity = 0 then .error .zeroOutputHop
      else
        (buildAmountsOut rest token_out_quantity).map
          (fun recs => mkSwapRecord h token_in_quantity token_out_quantity :: recs)

/-- `ArbitrageCalculationResult` (token objects abstracted to ids). -/
structure CalcResult where
  id : ℕ
  input_token : ℕ
  profit_token : ℕ
  input_amount : ℤ
  profit_amount : ℤ
  swap_amounts : List SwapAmounts
deriving DecidableEq

/-- The only error `_calculate` raises after the optimizer has run: both
`except` clauses around `_build_amounts_out` re-raise as
`ArbitrageError("No possible arbitrage: ...")`. -/
inductive ArbError where
  | noArbitrage
deriving DecidableEq

/-- The tail of `_calculate` (lines 548-575): convert the optimizer output
(`opt.x`, `opt.fun`) with Python `int()`, re-validate by building the
per-hop swap amounts, and either re-raise any failure as `ArbitrageError`
or return the `ArbitrageCalculationResult`. -/
def calcPost (id input_token : ℕ) (hops : List BuildHop) (optX optFun : ℚ) :
    Except ArbError CalcResult :=
  let best_profit : ℤ := -(pyInt optFun);
  let swap_amount : ℤ := pyInt optX;
  match buildAmountsOut hops swap_amount.toNat with
  | .error _ => .error .noArbitrage
  | .ok best_amounts =>
    .ok ⟨id, input_token, input_token, swap_amount, best_profit, best_amounts⟩

/-- The arguments `_calculate` passes to `scipy.optimize.minimize_scalar`
(lines 492-504 and 540-546). -/
structure MinimizeScalarCall where
  lowerBound : ℚ
  upperBound : ℚ
  bracket : ℚ × ℚ × ℚ
  xatol : ℚ
deriving DecidableEq

/-- The bounded-minimization call built by `_calculate` from `max_input`:
bounds `(1.0, max_input)`, bracket `(0.45, 0.50, 0.55) * max_input`,
absolute x-tolerance 1.0. -/
def calculateMinimizeCall (max_input : ℤ) : MinimizeScalarCall :=
  ⟨1, (max_input : ℚ),
    ((45 / 100 : ℚ) * (max_input : ℚ), (50 / 100 : ℚ) * (max_input : ℚ),
      (55 / 100 : ℚ) * (max_input : ℚ)),
    1⟩

/-- A precomputed swap vector (`UniswapPoolSwapVector`), tokens abstracted
to ids. -/
structure SwapVector where
  token_in : ℕ
  token_out : ℕ
  zero_for_one : Bool
deriving DecidableEq

/-- The swap-vector construction loop of `__init__` (lines 92-124): the
first pool is matched against the input token and each later pool against
the previous hop's `token_out`; a pool containing neither raises
`ValueError`. -/
def buildSwapVectors (prev_token_out : ℕ) :
    List (ℕ × ℕ) → Except Unit (List SwapVector)
  | [] => .ok []
  | (token0, token1) :: rest =>
    if prev_token_out = token0 then
      (buildSwapVectors token1 rest).map (fun vs => ⟨token0, token1, true⟩ :: vs)
    else if prev_token_out = token1 then
      (buildSwapVectors token0 rest).map (fun vs => ⟨token1, token0, false⟩ :: vs)
    else .error ()

/-- The `max_input` resolution of `__init__` (lines 78-81): `None` becomes
`100 * 10**18` (after a warning); an explicit value is stored as given. -/
def resolveMaxInput : Option ℤ → ℤ
  | none => 100 * 10 ^ 18
  | some m => m

/-- The part of a constructed `UniswapLpCycle` relevant to the claims:
its `max_input` and its swap vectors. -/
structure CycleInit where
  max_input : ℤ
  swap_vectors : List SwapVector
deriving DecidableEq

/-- `UniswapLpCycle.__init__`, restricted to `max_input` resolution and
swap-vector construction (the validated parts of construction). -/
def uniswapLpCycleInit (input_token : ℕ) (pools : List (ℕ × ℕ))
    (max_input : Option ℤ) : Except Unit CycleInit :=
  (buildSwapVectors input_token pools).map
    (fun vs => ⟨resolveMaxInput max_input, vs⟩)

lemma pyInt_of_nonneg {q : ℚ} (h : 0 ≤ q) : pyInt q = ⌊q⌋ := by
  simp [pyInt, h]

lemma preCheckAux_zeroLiquidity_iff (ov2 : ℕ → Option V2PoolState)
    (ov3 : ℕ → Option V3PoolState) (hops : List (PoolSpec × Bool)) (pf : ℚ) :
    preCheckAux ov2 ov3 hops pf = .zeroLiquidity
      ↔ ∃ pz ∈ hops, hopZeroLiquidity ov2 ov3 pz.1 pz.2 = true := by
  induction hops generalizing pf with
  | nil => simp only [preCheckAux]; split_ifs <;> simp
  | cons pz rest ih =>
    obtain ⟨p, zero_for_one⟩ := pz
    by_cases hz : hopZeroLiquidity ov2 ov3 p zero_for_one
    · simp [preCheckAux, hz]
    · simp only [preCheckAux, hz]
      simp only [Bool.false_eq_true, if_false, ih]
      simp [hz]

lemma preCheckAux_of_no_zeroLiquidity (ov2 : ℕ → Option V2PoolState)
    (ov3 : ℕ → Option V3PoolState) (hops : List (PoolSpec × Bool)) (pf : ℚ)
    (h : ∀ pz ∈ hops, hopZeroLiquidity ov2 ov3 pz.1 pz.2 = false) :
    preCheckAux ov2 ov3 hops pf =
      if pf * (hops.map fun pz => hopFactor ov2 ov3 pz.1 pz.2).prod < 1
      then .noProfit else .ok := by
  induction hops generalizing pf with
  | nil => simp [preCheckAux]
  | cons pz rest ih =>
    obtain ⟨p, zero_for_one⟩ := pz
    have hz : hopZeroLiquidity ov2 ov3 p zero_for_one = false :=
      h _ (List.mem_cons_self _ _)
    have hrest : ∀ pz ∈ rest, hopZeroLiquidity ov2 ov3 pz.1 pz.2 = false :=
      fun pz hpz => h pz (List.mem_cons_of_mem _ hpz)
    simp only [preCheckAux, hz, Bool.false_eq_true, if_false,
      ih _ hrest, List.map_cons, List.prod_cons]
    rw [mul_assoc]

/-- C1: with every hop passing its liquidity check, the pre-flight check
fails with `NoProfit` exactly when the accumulated `profit_factor` — the
product over hops of directional spot price times fee multiplier — is
below 1, and passes otherwise; and the V3 spot price equals
`(sqrt_price_x96 / 2^96)^2`. -/
theorem preCalculationCheck_noProfit_iff (hops : List (PoolSpec × Bool))
    (ov2 : ℕ → Option V2PoolState) (ov3 : ℕ → Option V3PoolState)
    (h : ∀ pz ∈ hops, hopZeroLiquidity ov2 ov3 pz.1 pz.2 = false) :
    (preCalculationCheck hops ov2 ov3 = .noProfit
      ↔ (hops.map fun pz => hopFactor ov2 ov3 pz.1 pz.2).prod < 1)
    ∧ (preCalculationCheck hops ov2 ov3 = .ok
      ↔ 1 ≤ (hops.map fun pz => hopFactor ov2 ov3 pz.1 pz.2).prod)
    ∧ ∀ address fee st, hopPrice ov2 ov3 (.v3 address fee st)
        = (((v3EffState ov3 address st).sqrt_price_x96 : ℚ) / 2 ^ 96) ^ 2 := by
  unfold preCalculationCheck
  rw [preCheckAux_of_no_zeroLiquidity ov2 ov3 hops 1 h, one_mul]
  refine ⟨?_, ?_, ?_⟩
  · split_ifs with hlt
    · exact iff_of_true rfl hlt
    · exact iff_of_false (by simp) hlt
  · split_ifs with hlt
    · exact iff_of_false (by simp) (not_le.mpr hlt)
    · exact iff_of_true rfl (le_of_not_lt hlt)
  · intro address fee st
    simp only [hopPrice, div_pow]
    norm_num

/-- C6: the pre-flight check reports `ZeroLiquidity` exactly when some hop
fails its liquidity check; a V3 hop fails it exactly when
`sqrt_price_x96 = 0`, the tick bitmap is empty, or `liquidity = 0` with the
price already at the boundary in the swap's direction; and the outcome is
always one of `Ok`, `NoProfit`, `ZeroLiquidity`. -/
theorem preCalculationCheck_zeroLiquidity_iff (hops : List (PoolSpec × Bool))
    (ov2 : ℕ → Option V2PoolState) (ov3 : ℕ → Option V3PoolState) :
    (preCalculationCheck hops ov2 ov3 = .zeroLiquidity
      ↔ ∃ pz ∈ hops, hopZeroLiquidity ov2 ov3 pz.1 pz.2 = true)
    ∧ (∀ address fee st zero_for_one,
        hopZeroLiquidity ov2 ov3 (.v3 address fee st) zero_for_one = true
          ↔ ((v3EffState ov3 address st).sqrt_price_x96 = 0
             ∨ (v3EffState ov3 address st).tick_bitmap = []
             ∨ ((v3EffState ov3 address st).liquidity = 0
                ∧ (((v3EffState ov3 address st).sqrt_price_x96 = minSqrtRatio + 1
                      ∧ zero_for_one = true)
                   ∨ ((v3EffState ov3 address st).sqrt_price_x96 = maxSqrtRatio - 1
                      ∧ zero_for_one = false)))))
    ∧ (preCalculationCheck hops ov2 ov3 = .ok
       ∨ preCalculationCheck hops ov2 ov3 = .noProfit
       ∨ preCalculationCheck hops ov2 ov3 = .zeroLiquidity) := by
  refine ⟨preCheckAux_zeroLiquidity_iff ov2 ov3 hops 1, ?_, ?_⟩
  · intro address fee st zero_for_one
    cases zero_for_one <;>
      simp [hopZeroLiquidity, List.isEmpty_iff, and_assoc, or_assoc]
  · cases hq : preCalculationCheck hops ov2 ov3 <;> simp

/-- C9: a V2 hop with both reserves nonzero is rejected as
`ZeroLiquidity` by the pre-flight check exactly when the output-side
reserve is a single base unit (`reserves_token1 = 1` for a zero-for-one
hop, `reserves_token0 = 1` for a one-for-zero hop). -/
theorem preCalculationCheck_v2_reserve_one (address : ℕ) (fee_token0 fee_token1 : Fee)
    (r0 r1 : ℕ) (zero_for_one : Bool) (h0 : r0 ≠ 0) (h1 : r1 ≠ 0) :
    preCalculationCheck [(.v2 address fee_token0 fee_token1 ⟨r0, r1⟩, zero_for_one)]
        (fun _ => none) (fun _ => none) = .zeroLiquidity
      ↔ ((zero_for_one = true ∧ r1 = 1) ∨ (zero_for_one = false ∧ r0 = 1)) := by
  rw [(preCalculationCheck_zeroLiquidity_iff _ _ _).1]
  cases zero_for_one <;> simp [hopZeroLiquidity, v2EffState, h0, h1]

lemma chainExcept_error_arbLoopBody (hops : List PoolCalc) (a c : ℕ)
    (e : PoolCalcError) (h : chainExcept hops a = .error e) :
    arbLoopBody hops a c = 0 := by
  induction hops generalizing a c with
  | nil => simp [chainExcept] at h
  | cons f rest ih =>
    cases hf : f a with
    | error e' => simp [arbLoopBody, hf]
    | ok out =>
      simp only [chainExcept, hf] at h
      simp only [arbLoopBody, hf]
      exact ih out out h

/-- C2: the objective `arb_profit` is a total function — a pool error
raised during the chain evaluation is swallowed, the evaluation proceeds
as if the chain produced `amount_out = 0`, and the objective returns the
negated profit `-(0 - floor x)`. -/
theorem arbProfit_swallows_errors (hops : List PoolCalc) (x : ℚ)
    (e : PoolCalcError) (hx : 1 ≤ x)
    (herr : chainExcept hops (pyInt x).toNat = .error e) :
    arbProfit hops x = -((0 : ℚ) - (⌊x⌋ : ℚ)) := by
  have h0 : (0 : ℚ) ≤ x := le_trans zero_le_one hx
  have hloop := chainExcept_error_arbLoopBody hops (pyInt x).toNat 0 e herr
  simp only [arbProfit, tokenOutQuantityOf, hloop]
  rw [pyInt_of_nonneg h0]
  simp

/-- The hop reached at some position by `_build_amounts_out`: the head hop
receives the initial input, and each later hop is reached once the
preceding hop succeeds with a nonzero output that becomes its input. -/
inductive ReachesHop : List BuildHop → ℕ → BuildHop → ℕ → Prop where
  | head (h : BuildHop) (rest : List BuildHop) (token_in_quantity : ℕ) :
      ReachesHop (h :: rest) token_in_quantity h token_in_quantity
  | step (h : BuildHop) (rest : List BuildHop) (token_in_quantity out : ℕ)
      (target : BuildHop) (inp : ℕ)
      (hcalc : h.calcOut token_in_quantity = .ok out) (hne : out ≠ 0)
      (htail : ReachesHop rest out target inp) :
      ReachesHop (h :: rest) token_in_quantity target inp

/-- C7: if the hop reached at any position of the chain yields
`amount_out = 0`, `_build_amounts_out` aborts with the zero-output-hop
`ArbitrageError`, so no record of a zero-output hop is ever returned. -/
theorem buildAmountsOut_zero_output_aborts (hops : List BuildHop)
    (token_in_quantity : ℕ) (target : BuildHop) (inp : ℕ)
    (hr : ReachesHop hops token_in_quantity target inp)
    (h0 : target.calcOut inp = .ok 0) :
    buildAmountsOut hops token_in_quantity = .error .zeroOutputHop := by
  induction hr with
  | head h rest tin => simp [buildAmountsOut, h0]
  | step h rest tin out target inp hcalc hne htail ih =>
    simp only [buildAmountsOut, hcalc, if_neg hne, ih h0]
    rfl

/-- Three-list `zipWith`, used to state the shape of the record list
produced by `_build_amounts_out`. -/
def zipWith3 (f : α → β → γ → δ) : List α → List β → List γ → List δ
  | a :: as, b :: bs, c :: cs => f a b c :: zipWith3 f as bs cs
  | _, _, _ => []

/-- C8: when `_build_amounts_out` succeeds, there is a chain of nonzero
hop outputs such that every hop's record is `mkSwapRecord` of its input
and output — `(0, out)` / `(out, 0)` by direction with exactly one zero
component for a V2 pool, and `amount_specified` equal to the hop's input,
the hop's direction flag, and the boundary `sqrt_price_limit_x96` for a
V3 pool. -/
theorem buildAmountsOut_ok_shapes (hops : List BuildHop) (token_in_quantity : ℕ)
    (recs : List SwapAmounts)
    (hok : buildAmountsOut hops token_in_quantity = .ok recs) :
    ∃ outs : List ℕ,
      outs.length = hops.length
      ∧ List.Forall₂ (fun (hi : BuildHop × ℕ) (out : ℕ) =>
            hi.1.calcOut hi.2 = .ok out ∧ out ≠ 0)
          (hops.zip (token_in_quantity :: outs)) outs
      ∧ recs = zipWith3 mkSwapRecord hops (token_in_quantity :: outs) outs
      ∧ ∀ r ∈ recs,
          (∀ a b, r = .v2 (a, b) → (a = 0 ∧ b ≠ 0) ∨ (b = 0 ∧ a ≠ 0))
          ∧ (∀ amt zfo lim, r = .v3 amt zfo lim →
              lim = if zfo then minSqrtRatio + 1 else maxSqrtRatio - 1) := by
  induction hops generalizing token_in_quantity recs with
  | nil =>
    simp only [buildAmountsOut, Except.ok.injEq] at hok
    exact ⟨[], by simp [← hok, zipWith3]⟩
  | cons h rest ih =>
    cases hc : h.calcOut token_in_quantity with
    | error e =>
      cases e <;> simp [buildAmountsOut, hc] at hok
    | ok out =>
      by_cases hz : out = 0
      · simp [buildAmountsOut, hc, hz] at hok
      · simp only [buildAmountsOut, hc, hz, if_false] at hok
        cases hb : buildAmountsOut rest out with
        | error e => rw [hb] at hok; simp [Except.map] at hok
        | ok rs =>
          rw [hb] at hok
          simp only [Except.map, Except.ok.injEq] at hok
          obtain ⟨outs, hlen, hfa, hrecs, hshape⟩ := ih out rs hb
          refine ⟨out :: outs, by simp [hlen], ?_, ?_, ?_⟩
          · rw [List.zip_cons_cons]
            exact List.Forall₂.cons ⟨hc, hz⟩ hfa
          · rw [← hok, hrecs]; rfl
          · intro r hr
            rw [← hok] at hr
            rcases List.mem_cons.mp hr with hr | hr
            · subst hr
              constructor
              · intro a b hab
                unfold mkSwapRecord at hab
                cases hk : h.kind
                · rw [hk] at hab
                  simp only at hab
                  cases hzf : h.zero_for_one <;> rw [hzf] at hab <;>
                    simp only [if_true, if_false, Bool.false_eq_true,
                      SwapAmounts.v2.injEq, Prod.mk.injEq] at hab
                  · exact Or.inr ⟨hab.2.symm, fun hh => hz (hab.1.trans hh)⟩
                  · exact Or.inl ⟨hab.1.symm, fun hh => hz (hab.2.trans hh)⟩
                · rw [hk] at hab; simp at hab
              · intro amt zfo lim hv3
                unfold mkSwapRecord at hv3
                cases hk : h.kind
                · rw [hk] at hv3; simp at hv3
                · rw [hk] at hv3
                  simp only [SwapAmounts.v3.injEq] at hv3
                  rw [← hv3.2.1, ← hv3.2.2]
            · exact hshape r hr

lemma calcPost_eq (id input_token : ℕ) (hops : List BuildHop) (optX optFun : ℚ) :
    calcPost id input_token hops optX optFun =
      match buildAmountsOut hops (pyInt optX).toNat with
      | .error _ => .error .noArbitrage
      | .ok best_amounts =>
        .ok ⟨id, input_token, input_token, pyInt optX, -(pyInt optFun), best_amounts⟩ :=
  rfl

/-- C3 (amended): after the optimizer has converged, `_calculate` raises
the `No possible arbitrage` `ArbitrageError` exactly when rebuilding the
per-hop swap amounts at the converged input fails; otherwise it returns
the `ArbitrageCalculationResult` — even when the best profit is
non-positive (profitability is judged by the caller). -/
theorem calcPost_error_iff (id input_token : ℕ) (hops : List BuildHop)
    (optX optFun : ℚ) :
    (calcPost id input_token hops optX optFun = .error .noArbitrage
      ↔ ∃ e, buildAmountsOut hops (pyInt optX).toNat = .error e)
    ∧ (∀ recs, buildAmountsOut hops (pyInt optX).toNat = .ok recs →
        calcPost id input_token hops optX optFun
          = .ok ⟨id, input_token, input_token, pyInt optX, -(pyInt optFun), recs⟩) := by
  rw [calcPost_eq]
  cases hb : buildAmountsOut hops (pyInt optX).toNat <;> simp [hb]

/-- C5 (amended): `_calculate` calls the bounded scalar minimizer with
bounds `[1, max_input]`, bracket `(0.45, 0.50, 0.55) * max_input` and
absolute x-tolerance 1, and the returned result carries
`input_amount = int(opt.x)` and `profit_amount = -int(opt.fun)` — Python
`int()` truncation toward zero, not rounding to nearest. -/
theorem calculateMinimizeCall_params (max_input : ℤ) (id input_token : ℕ)
    (hops : List BuildHop) (optX optFun : ℚ) (r : CalcResult)
    (hok : calcPost id input_token hops optX optFun = .ok r) :
    calculateMinimizeCall max_input
      = ⟨1, (max_input : ℚ),
          ((45 / 100 : ℚ) * (max_input : ℚ), (50 / 100 : ℚ) * (max_input : ℚ),
            (55 / 100 : ℚ) * (max_input : ℚ)), 1⟩
    ∧ r.input_amount = pyInt optX ∧ r.profit_amount = -(pyInt optFun) := by
  refine ⟨rfl, ?_⟩
  rw [calcPost_eq] at hok
  cases hb : buildAmountsOut hops (pyInt optX).toNat <;> rw [hb] at hok
  · exact absurd hok (by simp)
  · simp only [Except.ok.injEq] at hok
    rw [← hok]
    exact ⟨rfl, rfl⟩

/-- C4 (amended): when swap-vector construction succeeds, the first
vector's `token_in` is the input token and consecutive vectors chain
(`token_out` of each equals `token_in` of the next); closure of the last
vector back onto the input token is not checked by the constructor. -/
theorem buildSwapVectors_chain (input_token : ℕ) (pools : List (ℕ × ℕ))
    (vecs : List SwapVector) (h : buildSwapVectors input_token pools = .ok vecs) :
    vecs.length = pools.length
    ∧ (∀ v, vecs.head? = some v → v.token_in = input_token)
    ∧ vecs.Chain' (fun a b => a.token_out = b.token_in) := by
  induction pools generalizing input_token vecs with
  | nil =>
    simp only [buildSwapVectors, Except.ok.injEq] at h
    simp [← h]
  | cons pool rest ih =>
    obtain ⟨token0, token1⟩ := pool
    rw [buildSwapVectors] at h
    by_cases h0 : input_token = token0
    · rw [if_pos h0] at h
      cases hb : buildSwapVectors token1 rest with
      | error e => rw [hb] at h; simp [Except.map] at h
      | ok vs =>
        rw [hb] at h
        simp only [Except.map, Except.ok.injEq] at h
        obtain ⟨hlen, hhead, hchain⟩ := ih token1 vs hb
        refine ⟨by simp [← h, hlen], ?_, ?_⟩
        · intro v hv
          rw [← h] at hv
          simp only [List.head?_cons, Option.some.injEq] at hv
          rw [← hv, h0]
        · rw [← h]
          refine List.chain'_cons'.mpr ⟨?_, hchain⟩
          intro y hy
          exact (hhead y hy).symm
    · rw [if_neg h0] at h
      by_cases h1 : input_token = token1
      · rw [if_pos h1] at h
        cases hb : buildSwapVectors token0 rest with
        | error e => rw [hb] at h; simp [Except.map] at h
        | ok vs =>
          rw [hb] at h
          simp only [Except.map, Except.ok.injEq] at h
          obtain ⟨hlen, hhead, hchain⟩ := ih token0 vs hb
          refine ⟨by simp [← h, hlen], ?_, ?_⟩
          · intro v hv
            rw [← h] at hv
            simp only [List.head?_cons, Option.some.injEq] at hv
            rw [← hv, h1]
          · rw [← h]
            refine List.chain'_cons'.mpr ⟨?_, hchain⟩
            intro y hy
            exact (hhead y hy).symm
      · rw [if_neg h1] at h
        exact absurd h (by simp)

/-- C10 (amended): a cycle constructed without an explicit `max_input`
gets the default `100 * 10^18`, which is positive. -/
theorem uniswapLpCycleInit_default_max_input (input_token : ℕ)
    (pools : List (ℕ × ℕ)) (ci : CycleInit)
    (h : uniswapLpCycleInit input_token pools none = .ok ci) :
    ci.max_input = 100 * 10 ^ 18 ∧ 0 < ci.max_input := by
  unfold uniswapLpCycleInit at h
  cases hb : buildSwapVectors input_token pools <;> rw [hb] at h
  · exact absurd h (by simp [Except.map])
  · simp only [Except.map, Except.ok.injEq] at h
    rw [← h]
    exact ⟨rfl, by norm_num [resolveMaxInput]⟩

/-- Test fixture: a V2 pool with default fees and reserves (100, 200). -/
def testV2PoolSpec : PoolSpec := .v2 7 ⟨3, 1000⟩ ⟨3, 1000⟩ ⟨100, 200⟩

/-- Test fixture: no state overrides supplied (V2). -/
def noOv2 : ℕ → Option V2PoolState := fun _ => none

/-- Test fixture: no state overrides supplied (V3). -/
def noOv3 : ℕ → Option V3PoolState := fun _ => none

/-- Test fixture: a V2 hop over a pool with reserves (100, 100), swapping
zero-for-one. -/
def testHopV2 : BuildHop := ⟨.v2, true, v2CalcOutFromIn 100 100 3 1000⟩

/-- Test fixture: a V2 hop whose output reserve holds a single base unit,
so its clamped output is always zero. -/
def zeroOutHop : BuildHop := ⟨.v2, true, v2CalcOutFromIn 1000000 1 3 1000⟩

/-- Test fixture: a V3 hop (one-for-zero) whose calculator returns
`input + 5`, standing in for a tick-walking simulation. -/
def testHopV3 : BuildHop := ⟨.v3, false, fun n => .ok (n + 5)⟩

/-- Test fixture: a V2 pool calculator over empty reserves, which fails
with a `LiquidityPoolError` on every input. -/
def failingHop : PoolCalc := v2CalcOutFromIn 0 0 3 1000

lemma pyInt_27_10 : pyInt (27 / 10) = 2 := by norm_num [pyInt]

lemma pyInt_neg_37_10 : pyInt (-(37 / 10)) = -3 := by
  rw [pyInt, if_neg (by norm_num)]
  norm_num [Int.ceil_eq_iff]

lemma pyInt_7_2 : pyInt (7 / 2) = 3 := by norm_num [pyInt]

lemma pyInt_7_2_toNat : (pyInt (7 / 2)).toNat = 3 := by rw [pyInt_7_2]; rfl

theorem preCalculationCheck_noProfit_iff_witness :
    (∀ pz ∈ ([(testV2PoolSpec, true)] : List (PoolSpec × Bool)),
      hopZeroLiquidity noOv2 noOv3 pz.1 pz.2 = false)
    ∧ ((preCalculationCheck [(testV2PoolSpec, true)] noOv2 noOv3 = .noProfit
          ↔ (([(testV2PoolSpec, true)] : List (PoolSpec × Bool)).map
              fun pz => hopFactor noOv2 noOv3 pz.1 pz.2).prod < 1)
      ∧ (preCalculationCheck [(testV2PoolSpec, true)] noOv2 noOv3 = .ok
          ↔ 1 ≤ (([(testV2PoolSpec, true)] : List (PoolSpec × Bool)).map
              fun pz => hopFactor noOv2 noOv3 pz.1 pz.2).prod)
      ∧ ∀ address fee st, hopPrice noOv2 noOv3 (.v3 address fee st)
          = (((v3EffState noOv3 address st).sqrt_price_x96 : ℚ) / 2 ^ 96) ^ 2) :=
  ⟨by decide, preCalculationCheck_noProfit_iff _ noOv2 noOv3 (by decide)⟩

theorem arbProfit_swallows_errors_witness :
    (1 : ℚ) ≤ 7 / 2
    ∧ chainExcept [failingHop] (pyInt (7 / 2)).toNat = .error .liquidityPool
    ∧ arbProfit [failingHop] (7 / 2) = -((0 : ℚ) - ((⌊(7 / 2 : ℚ)⌋ : ℤ) : ℚ)) :=
  ⟨by norm_num, by rw [pyInt_7_2_toNat]; rfl,
    arbProfit_swallows_errors [failingHop] (7 / 2) .liquidityPool (by norm_num)
      (by rw [pyInt_7_2_toNat]; rfl)⟩

theorem preCalculationCheck_v2_reserve_one_witness :
    (5 : ℕ) ≠ 0 ∧ (1 : ℕ) ≠ 0
    ∧ (preCalculationCheck [(.v2 9 ⟨3, 1000⟩ ⟨3, 1000⟩ ⟨5, 1⟩, true)]
          (fun _ => none) (fun _ => none) = .zeroLiquidity
        ↔ ((true = true ∧ (1 : ℕ) = 1) ∨ (true = false ∧ (5 : ℕ) = 1))) :=
  ⟨by decide, by decide,
    preCalculationCheck_v2_reserve_one 9 ⟨3, 1000⟩ ⟨3, 1000⟩ 5 1 true
      (by decide) (by decide)⟩

theorem buildAmountsOut_zero_output_aborts_witness :
    buildAmountsOut [testHopV2, zeroOutHop] 10 = .error .zeroOutputHop :=
  buildAmountsOut_zero_output_aborts [testHopV2, zeroOutHop] 10 zeroOutHop 9
    (.step testHopV2 [zeroOutHop] 10 9 zeroOutHop 9 (by rfl) (by decide)
      (.head zeroOutHop [] 9))
    (by rfl)

theorem buildAmountsOut_ok_shapes_witness :
    ∃ outs : List ℕ,
      outs.length = ([testHopV2, testHopV3] : List BuildHop).length
      ∧ List.Forall₂ (fun (hi : BuildHop × ℕ) (out : ℕ) =>
            hi.1.calcOut hi.2 = .ok out ∧ out ≠ 0)
          (([testHopV2, testHopV3] : List BuildHop).zip (10 :: outs)) outs
      ∧ [SwapAmounts.v2 (0, 9), SwapAmounts.v3 9 false (maxSqrtRatio - 1)]
          = zipWith3 mkSwapRecord [testHopV2, testHopV3] (10 :: outs) outs
      ∧ ∀ r ∈ [SwapAmounts.v2 (0, 9), SwapAmounts.v3 9 false (maxSqrtRatio - 1)],
          (∀ a b, r = .v2 (a, b) → (a = 0 ∧ b ≠ 0) ∨ (b = 0 ∧ a ≠ 0))
          ∧ (∀ amt zfo lim, r = .v3 amt zfo lim →
              lim = if zfo then minSqrtRatio + 1 else maxSqrtRatio - 1) :=
  buildAmountsOut_ok_shapes [testHopV2, testHopV3] 10
    [SwapAmounts.v2 (0, 9), SwapAmounts.v3 9 false (maxSqrtRatio - 1)] (by rfl)

/-- C3 counterexample: the optimizer output `(opt.x, opt.fun) = (10, 5)`
gives best profit `-5 ≤ 0`, yet re-validation succeeds and `_calculate`
returns a result instead of raising `NoArbitrage`. -/
theorem calcPost_nonpositive_profit_returns_result :
    calcPost 2 0 [testHopV2] 10 5 = .ok ⟨2, 0, 0, 10, -5, [.v2 (0, 9)]⟩
    ∧ (-5 : ℤ) ≤ 0 :=
  ⟨by rfl, by decide⟩

theorem calcPost_error_iff_witness :
    buildAmountsOut [testHopV2] (pyInt 10).toNat = .ok [.v2 (0, 9)]
    ∧ calcPost 3 0 [testHopV2] 10 5
        = .ok ⟨3, 0, 0, pyInt 10, -(pyInt 5), [.v2 (0, 9)]⟩ :=
  ⟨by rfl, (calcPost_error_iff 3 0 [testHopV2] 10 5).2 [.v2 (0, 9)] (by rfl)⟩

/-- C5 counterexample: at `opt.x = 2.7` and `opt.fun = -3.7` the result
carries `input_amount = 2` and `profit_amount = 3` (Python `int()`
truncation), not `round(opt.x) = 3` and `-round(opt.fun) = 4`. -/
theorem calcPost_truncates_not_rounds :
    calcPost 5 0 [testHopV2] (27 / 10) (-(37 / 10)) = .ok ⟨5, 0, 0, 2, 3, [.v2 (0, 1)]⟩
    ∧ round ((27 : ℚ) / 10) = 3 ∧ (2 : ℤ) ≠ round ((27 : ℚ) / 10)
    ∧ -(round (-((37 : ℚ) / 10))) = 4 ∧ (3 : ℤ) ≠ -(round (-((37 : ℚ) / 10))) := by
  refine ⟨?_, ?_, ?_, ?_, ?_⟩
  · rw [calcPost_eq, pyInt_27_10, pyInt_neg_37_10]; rfl
  all_goals norm_num [round_eq]

theorem calculateMinimizeCall_params_witness :
    calculateMinimizeCall 7
      = ⟨1, ((7 : ℤ) : ℚ),
          ((45 / 100 : ℚ) * ((7 : ℤ) : ℚ), (50 / 100 : ℚ) * ((7 : ℤ) : ℚ),
            (55 / 100 : ℚ) * ((7 : ℤ) : ℚ)), 1⟩
    ∧ (⟨4, 0, 0, 2, 3, [.v2 (0, 1)]⟩ : CalcResult).input_amount = pyInt (27 / 10)
    ∧ (⟨4, 0, 0, 2, 3, [.v2 (0, 1)]⟩ : CalcResult).profit_amount = -(pyInt (-(37 / 10))) :=
  calculateMinimizeCall_params 7 4 0 [testHopV2] (27 / 10) (-(37 / 10))
    ⟨4, 0, 0, 2, 3, [.v2 (0, 1)]⟩
    (by rw [calcPost_eq, pyInt_27_10, pyInt_neg_37_10]; rfl)

/-- C4 counterexample: a single-pool "cycle" whose last vector does not
return to the input token still constructs successfully — the constructor
never checks closure. -/
theorem buildSwapVectors_no_closure :
    buildSwapVectors 0 [(0, 1)] = .ok [⟨0, 1, true⟩]
    ∧ SwapVector.token_out ⟨0, 1, true⟩ ≠ 0 :=
  ⟨by rfl, by decide⟩

theorem buildSwapVectors_chain_witness :
    ([⟨0, 1, true⟩, ⟨1, 0, true⟩] : List SwapVector).length
        = ([(0, 1), (1, 0)] : List (ℕ × ℕ)).length
    ∧ (∀ v, ([⟨0, 1, true⟩, ⟨1, 0, true⟩] : List SwapVector).head? = some v →
        v.token_in = 0)
    ∧ ([⟨0, 1, true⟩, ⟨1, 0, true⟩] : List SwapVector).Chain'
        (fun a b => a.token_out = b.token_in) :=
  buildSwapVectors_chain 0 [(0, 1), (1, 0)] [⟨0, 1, true⟩, ⟨1, 0, true⟩] (by rfl)

/-- C10 counterexample: an explicitly supplied `max_input = 0` is stored
unvalidated, so a constructed cycle need not have a positive `max_input`. -/
theorem uniswapLpCycleInit_accepts_zero_max_input :
    uniswapLpCycleInit 0 [(0, 1)] (some 0) = .ok ⟨0, [⟨0, 1, true⟩]⟩
    ∧ ¬ ((0 : ℤ) < 0) :=
  ⟨by rfl, by decide⟩

theorem uniswapLpCycleInit_default_max_input_witness :
    (⟨100 * 10 ^ 18, [⟨0, 1, true⟩]⟩ : CycleInit).max_input = 100 * 10 ^ 18
    ∧ (0 : ℤ) < (⟨100 * 10 ^ 18, [⟨0, 1, true⟩]⟩ : CycleInit).max_input :=
  uniswapLpCycleInit_default_max_input 0 [(0, 1)] ⟨100 * 10 ^ 18, [⟨0, 1, true⟩]⟩ (by rfl)

end Degenbot
